import Mathlib

/-!
Shallow embedding of `scripts/visualizacion_burbujas.py`, a one-shot
reporting pipeline: load observation and event tables, derive columns
(rebased price, drawdown percentage), align events to the NASDAQ series
with a backward as-of join, and build four chart specifications that are
interpolated into a fixed HTML narrative.

Modelling conventions:
- calendar dates are encoded as natural numbers in `yyyymmdd` form, an
  order-preserving encoding of `pd.Timestamp` days;
- real-valued columns are rationals (`ℚ`); nullable columns are `Option ℚ`
  (pandas `NaN` becomes `none`);
- `DataFrame`s are lists of rows; `sort_values` is a stable merge sort;
- `pd.merge_asof(..., direction="backward")` matches each left row to the
  last right row whose date is ≤ the left date (the right frame is sorted
  by date, ties resolved to the last occurrence, as in pandas).
-/

namespace Burbujas

/-- One row of `data_processed/indices_dotcom_ia_dataset.csv` after
`pd.read_csv(..., parse_dates=["date"])`: columns `date`, `index`,
`period`, `close`, `drawdown`, `rolling_vol_30d`. -/
structure Obs where
  date : Nat
  index : String
  period : String
  close : ℚ
  drawdown : Option ℚ
  rolling_vol_30d : Option ℚ
  deriving DecidableEq

/-- One row of `eventos_dotcom_ia.xlsx`: columns `date`, `event_name`,
`description`. -/
structure Event where
  date : Nat
  event_name : String
  description : String
  deriving DecidableEq

/-- The strict order `sort_values` uses on string key columns:
lexicographic by code point. Stated on character lists (so that terms
evaluate); `strLt_iff` shows it is exactly the `String` order. -/
def strLt (a b : String) : Prop :=
  a.toList < b.toList

instance decStrLt : DecidableRel strLt := fun a b =>
  inferInstanceAs (Decidable (a.toList < b.toList))

theorem strLt_iff (a b : String) : strLt a b ↔ a < b :=
  String.lt_iff_toList_lt.symm

theorem strLt_trans {a b c : String} (h1 : strLt a b) (h2 : strLt b c) :
    strLt a c :=
  (strLt_iff a c).mpr (lt_trans ((strLt_iff a b).mp h1) ((strLt_iff b c).mp h2))

theorem strLt_irrefl (a : String) : ¬ strLt a a := fun h =>
  lt_irrefl a ((strLt_iff a a).mp h)

theorem strLt_trichotomy (a b : String) : strLt a b ∨ a = b ∨ strLt b a := by
  rcases lt_trichotomy a b with h | h | h
  · exact Or.inl ((strLt_iff a b).mpr h)
  · exact Or.inr (Or.inl h)
  · exact Or.inr (Or.inr ((strLt_iff b a).mpr h))

/-- Lexicographic key of `df.sort_values(["index", "period", "date"])`
(line 39). -/
def obsLe (a b : Obs) : Prop :=
  strLt a.index b.index ∨ (a.index = b.index ∧
    (strLt a.period b.period ∨ (a.period = b.period ∧ a.date ≤ b.date)))

instance decObsLe : DecidableRel obsLe := fun a b =>
  inferInstanceAs (Decidable (strLt a.index b.index ∨ (a.index = b.index ∧
    (strLt a.period b.period ∨ (a.period = b.period ∧ a.date ≤ b.date)))))

instance transObsLe : IsTrans Obs obsLe := by
  constructor
  intro a b c h1 h2
  rcases h1 with h1 | ⟨e1, h1⟩
  · rcases h2 with h2 | ⟨e2, h2⟩
    · exact Or.inl (strLt_trans h1 h2)
    · exact Or.inl (e2 ▸ h1)
  · rcases h2 with h2 | ⟨e2, h2⟩
    · exact Or.inl (e1 ▸ h2)
    · refine Or.inr ⟨e1.trans e2, ?_⟩
      rcases h1 with h1 | ⟨p1, h1⟩
      · rcases h2 with h2 | ⟨p2, h2⟩
        · exact Or.inl (strLt_trans h1 h2)
        · exact Or.inl (p2 ▸ h1)
      · rcases h2 with h2 | ⟨p2, h2⟩
        · exact Or.inl (p1 ▸ h2)
        · exact Or.inr ⟨p1.trans p2, le_trans h1 h2⟩

instance totalObsLe : IsTotal Obs obsLe := by
  constructor
  intro a b
  rcases strLt_trichotomy a.index b.index with h | h | h
  · exact Or.inl (Or.inl h)
  · rcases strLt_trichotomy a.period b.period with h2 | h2 | h2
    · exact Or.inl (Or.inr ⟨h, Or.inl h2⟩)
    · rcases Nat.le_total a.date b.date with h3 | h3
      · exact Or.inl (Or.inr ⟨h, Or.inr ⟨h2, h3⟩⟩)
      · exact Or.inr (Or.inr ⟨h.symm, Or.inr ⟨h2.symm, h3⟩⟩)
    · exact Or.inr (Or.inr ⟨h.symm, Or.inl h2⟩)
  · exact Or.inr (Or.inl h)

/-- `df = df.sort_values(["index", "period", "date"])` (line 39). -/
def sortDf (df : List Obs) : List Obs :=
  df.insertionSort obsLe

/-- `period_labels` dictionary (lines 42-45); `Series.map` yields `NaN`
(`none`) for keys outside the dictionary. -/
def periodLabels (p : String) : Option String :=
  if p = "dotcom" then some ("Burbuja puntocom (1997–2002)")
  else if p = "ia" then some ("Narrativa IA (2020–2025)")
  else none

/-- An observation row together with the derived columns `period_label`
(line 46), `close_indexed_100` (lines 49-53) and `drawdown_pct` (line 56). -/
structure ObsD where
  date : Nat
  index : String
  period : String
  close : ℚ
  drawdown : Option ℚ
  rolling_vol_30d : Option ℚ
  period_label : Option String
  close_indexed_100 : ℚ
  drawdown_pct : Option ℚ
  deriving DecidableEq

/-- The rows of the `groupby(["index", "period"])` group keyed `(i, p)`,
in dataframe order. -/
def groupRows (s : List Obs) (i p : String) : List Obs :=
  s.filter (fun x => x.index == i && x.period == p)

/-- `s.iloc[0]` of the group a row belongs to: the close of the first row
of the row's `(index, period)` group in the sorted dataframe (the `0` for
an empty group is unreachable for rows of the dataframe). -/
def anchorClose (s : List Obs) (r : Obs) : ℚ :=
  ((groupRows s r.index r.period).head?.map Obs.close).getD 0

/-- Derivation of the added columns for one row `r` of the sorted
dataframe `s` (lines 46, 49-53, 56). `transform(lambda s: s / s.iloc[0] * 100)`
divides each close by the group's first close and scales by 100. -/
def deriveRow (s : List Obs) (r : Obs) : ObsD :=
  { date := r.date, index := r.index, period := r.period, close := r.close,
    drawdown := r.drawdown, rolling_vol_30d := r.rolling_vol_30d,
    period_label := periodLabels r.period,
    close_indexed_100 := r.close / anchorClose s r * 100,
    drawdown_pct := r.drawdown.map (fun x => x * 100) }

/-- The dataframe after section 2.1-2.2: sorted and with the derived
columns added. -/
def deriveDf (df : List Obs) : List ObsD :=
  (sortDf df).map (deriveRow (sortDf df))

/-- The rows of the derived dataframe belonging to the
`groupby(["index", "period"])` group keyed `(i, p)`, in dataframe order:
the view of the data over which the rebasing contract of one group is
stated. -/
def groupRowsD (df : List Obs) (i p : String) : List ObsD :=
  (deriveDf df).filter (fun x => x.index == i && x.period == p)

/-- `df_vol = df[df["rolling_vol_30d"].notna()]` (line 59). -/
def df_vol (df : List Obs) : List ObsD :=
  (deriveDf df).filter (fun r => r.rolling_vol_30d.isSome)

/-- Date-only key of `sort_values("date")`. -/
def obsDDateLe (a b : ObsD) : Prop :=
  a.date ≤ b.date

instance decObsDDateLe : DecidableRel obsDDateLe := fun a b =>
  inferInstanceAs (Decidable (a.date ≤ b.date))

instance transObsDDateLe : IsTrans ObsD obsDDateLe :=
  ⟨fun _ _ _ h1 h2 => Nat.le_trans h1 h2⟩

instance totalObsDDateLe : IsTotal ObsD obsDDateLe :=
  ⟨fun a b => Nat.le_total a.date b.date⟩

/-- `nasdaq = df[df["index"] == "NASDAQ"].sort_values("date")` (line 63). -/
def nasdaqOf (df : List Obs) : List ObsD :=
  ((deriveDf df).filter (fun r => r.index == "NASDAQ")).insertionSort obsDDateLe

/-- `infer_period` (lines 66-72): static date-range membership with
inclusive bounds. -/
def inferPeriod (d : Nat) : Option String :=
  if 19970101 ≤ d ∧ d ≤ 20021231 then some ("dotcom")
  else if 20200101 ≤ d ∧ d ≤ 20251231 then some ("ia")
  else none

/-- An event row with the inferred `period` column (line 74) and, after
the survival filter, the `period_label` column (line 76). -/
structure EventP where
  date : Nat
  event_name : String
  description : String
  period : Option String
  period_label : Option String
  deriving DecidableEq

/-- `events["period"] = events["date"].apply(infer_period)` (line 74). -/
def classifyEvents (events : List Event) : List EventP :=
  events.map (fun e =>
    { date := e.date, event_name := e.event_name, description := e.description,
      period := inferPeriod e.date, period_label := none })

/-- `events = events[events["period"].notna()]` followed by
`events["period_label"] = events["period"].map(period_labels)`
(lines 75-76). -/
def survivingEvents (events : List Event) : List EventP :=
  ((classifyEvents events).filter (fun e => e.period.isSome)).map
    (fun e => { e with period_label := e.period.bind periodLabels })

/-- Date key for `events.sort_values("date")` (line 80). -/
def evLe (a b : EventP) : Prop :=
  a.date ≤ b.date

instance decEvLe : DecidableRel evLe := fun a b =>
  inferInstanceAs (Decidable (a.date ≤ b.date))

instance transEvLe : IsTrans EventP evLe :=
  ⟨fun _ _ _ h1 h2 => Nat.le_trans h1 h2⟩

instance totalEvLe : IsTotal EventP evLe :=
  ⟨fun a b => Nat.le_total a.date b.date⟩

/-- Backward as-of match of `pd.merge_asof(..., direction="backward")`
(lines 79-85): the last row of the date-sorted right frame whose date is
≤ `d`, or `none` when no such row exists. -/
def asofBackward (l : List ObsD) (d : Nat) : Option ObsD :=
  (l.filter (fun o => o.date ≤ d)).getLast?

/-- One row of `events_aligned` right after the merge, with the suffixed
column pairs `(_event, _idx)` (lines 79-85). -/
structure AlignedEvent where
  date : Nat
  event_name : String
  description : String
  close : Option ℚ
  period_event : Option String
  period_idx : Option String
  period_label_event : Option String
  period_label_idx : Option String
  deriving DecidableEq

/-- The merge of one surviving event against the NASDAQ frame: columns
`date`, `close`, `period`, `period_label` are brought over from the
matched row, `NaN` (`none`) when there is no match. -/
def alignRow (nasdaq : List ObsD) (e : EventP) : AlignedEvent :=
  let m := asofBackward nasdaq e.date
  { date := e.date, event_name := e.event_name, description := e.description,
    close := m.map ObsD.close,
    period_event := e.period, period_idx := m.map ObsD.period,
    period_label_event := e.period_label,
    period_label_idx := m.bind ObsD.period_label }

/-- `period_final = period_event.where(period_event.notna(), period_idx)`
(lines 88-91): the event's own period when present, else the matched
observation's period. -/
def periodFinal (a : AlignedEvent) : Option String :=
  match a.period_event with
  | some p => some p
  | none => a.period_idx

/-- `period_label_final` (lines 92-95), same fallback shape. -/
def periodLabelFinal (a : AlignedEvent) : Option String :=
  match a.period_label_event with
  | some l => some l
  | none => a.period_label_idx

/-- One row of the final `events_aligned` frame after the rename and the
column selection (lines 97-105). -/
structure EventAligned where
  date : Nat
  event_name : String
  description : String
  close : Option ℚ
  period : Option String
  period_label : Option String
  deriving DecidableEq

/-- One surviving event carried through merge, reconciliation, rename and
column selection (lines 79-105). -/
def alignedRowOf (nasdaq : List ObsD) (e : EventP) : EventAligned :=
  let a := alignRow nasdaq e
  { date := a.date, event_name := a.event_name, description := a.description,
    close := a.close, period := periodFinal a,
    period_label := periodLabelFinal a }

/-- `events_aligned` (lines 79-105): sort the surviving events by date,
merge each against the NASDAQ frame, reconcile the period columns and
keep `date, event_name, description, close, period, period_label`. -/
def eventsAligned (df : List Obs) (events : List Event) : List EventAligned :=
  ((survivingEvents events).insertionSort evLe).map (alignedRowOf (nasdaqOf df))

/-- One plotly `go.Scatter` line trace: its name, subplot position, and
the `(x, y)` data columns (`y` is nullable, as a pandas column). -/
structure Trace where
  name : String
  row : Nat
  col : Nat
  pts : List (Nat × Option ℚ)
  deriving DecidableEq

/-- The two tracked indices iterated over in every chart loop. -/
def indexNames : List String := ["NASDAQ", "SP500"]

/-- `fig1` traces (lines 115-163): per period panel and per index, the
`close_indexed_100` series. -/
def fig1Traces (df : List Obs) : List Trace :=
  let d := deriveDf df
  let dot := d.filter (fun r => r.period == "dotcom")
  let ia := d.filter (fun r => r.period == "ia")
  (indexNames.map (fun n =>
    { name := n, row := 1, col := 1,
      pts := (dot.filter (fun r => r.index == n)).map
        (fun r => (r.date, some r.close_indexed_100)) })) ++
  (indexNames.map (fun n =>
    { name := n, row := 1, col := 2,
      pts := (ia.filter (fun r => r.index == n)).map
        (fun r => (r.date, some r.close_indexed_100)) }))

/-- `min_dd = df["drawdown_pct"].min()` (line 204); pandas `min` skips
missing values and is `NaN` (`none`) on an all-missing column. -/
def min_dd (df : List Obs) : Option ℚ :=
  ((deriveDf df).filterMap (fun r => r.drawdown_pct)).min?

/-- `fig2` traces (lines 207-236): per period panel and per index, the
`drawdown_pct` series. -/
def fig2Traces (df : List Obs) : List Trace :=
  let d := deriveDf df
  let dot := d.filter (fun r => r.period == "dotcom")
  let ia := d.filter (fun r => r.period == "ia")
  (indexNames.map (fun n =>
    { name := n, row := 1, col := 1,
      pts := (dot.filter (fun r => r.index == n)).map
        (fun r => (r.date, r.drawdown_pct)) })) ++
  (indexNames.map (fun n =>
    { name := n, row := 1, col := 2,
      pts := (ia.filter (fun r => r.index == n)).map
        (fun r => (r.date, r.drawdown_pct)) }))

/-- `fig2.update_yaxes(..., col=1, range=[-100, 10])` (lines 254-260). -/
def fig2YRangeCol1 : ℚ × ℚ := (-100, 10)

/-- `fig2.update_yaxes(..., col=2, range=[-100, 10])` (lines 262-268). -/
def fig2YRangeCol2 : ℚ × ℚ := (-100, 10)

/-- `df_vol_dotcom = df_vol[df_vol["period"] == "dotcom"]` (line 283). -/
def df_vol_dotcom (df : List Obs) : List ObsD :=
  (df_vol df).filter (fun r => r.period == "dotcom")

/-- `df_vol_ia = df_vol[df_vol["period"] == "ia"]` (line 284). -/
def df_vol_ia (df : List Obs) : List ObsD :=
  (df_vol df).filter (fun r => r.period == "ia")

/-- `fig3` traces (lines 297-326): per period panel and per index, the
`rolling_vol_30d` series over the volatility-filtered rows. -/
def fig3Traces (df : List Obs) : List Trace :=
  (indexNames.map (fun n =>
    { name := n, row := 1, col := 1,
      pts := ((df_vol_dotcom df).filter (fun r => r.index == n)).map
        (fun r => (r.date, r.rolling_vol_30d)) })) ++
  (indexNames.map (fun n =>
    { name := n, row := 1, col := 2,
      pts := ((df_vol_ia df).filter (fun r => r.index == n)).map
        (fun r => (r.date, r.rolling_vol_30d)) }))

/-- One event marker of the annotated chart: `x` (date), `y` (aligned
close, nullable) and the hover `text` (event name). -/
structure Marker where
  x : Nat
  y : Option ℚ
  text : String
  deriving DecidableEq

/-- The NASDAQ price line of one `fig4` panel (lines 371, 374-384, 402,
405-415): the nasdaq frame restricted to one period. -/
def fig4Line (df : List Obs) (p : String) : List (Nat × ℚ) :=
  ((nasdaqOf df).filter (fun r => r.period == p)).map (fun r => (r.date, r.close))

/-- The event-marker trace of one `fig4` panel (lines 372, 386-399, 403,
417-430): `events_aligned` restricted to one period; the whole trace is
omitted (guard `if not ....empty`) exactly when that restriction is empty. -/
def fig4MarkersFor (df : List Obs) (events : List Event) (p : String) :
    Option (List Marker) :=
  let evs := (eventsAligned df events).filter (fun e => e.period == some p)
  if evs.isEmpty then none
  else some (evs.map (fun e => { x := e.date, y := e.close, text := e.event_name }))

/-- The fixed narrative section ids of the HTML template (lines 453-589),
in document order. -/
def htmlSections : List String :=
  ["capitulo1", "capitulo2", "capitulo3", "capitulo4"]

/-- The two input files of the pipeline. -/
structure Input where
  df : List Obs
  events : List Event
  deriving DecidableEq

/-- Everything data-dependent that reaches the rendered HTML: the four
chart specifications, the fixed fig2 y-ranges, and the narrative section
structure. -/
structure Output where
  fig1 : List Trace
  fig2 : List Trace
  fig2_yrange_col1 : ℚ × ℚ
  fig2_yrange_col2 : ℚ × ℚ
  fig3 : List Trace
  fig4_line_dotcom : List (Nat × ℚ)
  fig4_line_ia : List (Nat × ℚ)
  fig4_markers_dotcom : Option (List Marker)
  fig4_markers_ia : Option (List Marker)
  sections : List String
  deriving DecidableEq

/-- The whole pipeline as a function of its two inputs (lines 22-595). -/
def pipeline (inp : Input) : Output :=
  { fig1 := fig1Traces inp.df,
    fig2 := fig2Traces inp.df,
    fig2_yrange_col1 := fig2YRangeCol1,
    fig2_yrange_col2 := fig2YRangeCol2,
    fig3 := fig3Traces inp.df,
    fig4_line_dotcom := fig4Line inp.df "dotcom",
    fig4_line_ia := fig4Line inp.df "ia",
    fig4_markers_dotcom := fig4MarkersFor inp.df inp.events "dotcom",
    fig4_markers_ia := fig4MarkersFor inp.df inp.events "ia",
    sections := htmlSections }

/-! Concrete inputs used by counterexamples and by witnesses. -/

/-- A single NASDAQ observation dated after the event below: the event
has no match on or before its date. -/
def exDfLate : List Obs :=
  [⟨20010601, "NASDAQ", "dotcom", 2000, some 0, none⟩]

/-- A single event dated 2001-03-15, inside the dotcom range but before
every observation of `exDfLate`. -/
def exEventsLate : List Event :=
  [⟨20010315, "Quiebra", "desc"⟩]

/-- Two NASDAQ observations, one per period. -/
def exDfTwoPeriods : List Obs :=
  [⟨20000103, "NASDAQ", "dotcom", 5000, some 0, none⟩,
   ⟨20230102, "NASDAQ", "ia", 14000, some 0, none⟩]

/-- An ia-range event dated before every ia-period observation of
`exDfTwoPeriods` but after its dotcom-period observation. -/
def exEventsEarlyIa : List Event :=
  [⟨20200601, "EventoIA", "desc"⟩]

/-- A small well-formed observation table used by witnesses. -/
def exDfSmall : List Obs :=
  [⟨19990104, "NASDAQ", "dotcom", 110, some 0, some 1⟩,
   ⟨19990101, "NASDAQ", "dotcom", 100, some 0, none⟩,
   ⟨20200102, "SP500", "ia", 3200, none, none⟩]

/-- A single ia-range event dated after the first ia observation. -/
def exEventsSmall : List Event :=
  [⟨20200103, "Hito", "d"⟩]

/-- The classified-event row the pipeline builds for the event of
`exEventsSmall`. -/
def exEvIa : EventP :=
  ⟨20200103, "Hito", "d", some ("ia"), some ("Narrativa IA (2020–2025)")⟩

/-- The classified-event row the pipeline builds for the event of
`exEventsLate`. -/
def exEvLate : EventP :=
  ⟨20010315, "Quiebra", "desc", some ("dotcom"), some ("Burbuja puntocom (1997–2002)")⟩

/-- The observation of `exDfSmall` that the as-of join matches for
`exEvIa`. -/
def exAnchorObs : Obs := ⟨19990104, "NASDAQ", "dotcom", 110, some 0, some 1⟩

/-! Helper lemmas shared by the claim theorems. -/

theorem sortDf_pairwise (df : List Obs) : (sortDf df).Pairwise obsLe :=
  List.sorted_insertionSort obsLe df

theorem mem_sortDf {df : List Obs} {r : Obs} : r ∈ sortDf df ↔ r ∈ df :=
  List.mem_insertionSort obsLe

theorem nasdaqOf_pairwise (df : List Obs) :
    (nasdaqOf df).Pairwise obsDDateLe :=
  List.sorted_insertionSort obsDDateLe _

theorem mem_nasdaqOf {df : List Obs} {o : ObsD} :
    o ∈ nasdaqOf df ↔ o ∈ deriveDf df ∧ o.index = "NASDAQ" := by
  simp [nasdaqOf, List.mem_insertionSort, List.mem_filter]

theorem mem_deriveDf {df : List Obs} {r : ObsD} (hr : r ∈ deriveDf df) :
    ∃ z ∈ df, r = deriveRow (sortDf df) z := by
  simp only [deriveDf, List.mem_map] at hr
  obtain ⟨z, hz, hrz⟩ := hr
  exact ⟨z, mem_sortDf.mp hz, hrz.symm⟩

theorem obsLe_date_of_group {a b : Obs} (hi : a.index = b.index)
    (hp : a.period = b.period) (h : obsLe a b) : a.date ≤ b.date := by
  rcases h with h | ⟨_, h | ⟨_, h⟩⟩
  · exact absurd (hi ▸ h) (strLt_irrefl b.index)
  · exact absurd (hp ▸ h) (strLt_irrefl b.period)
  · exact h

theorem mem_groupRows {s : List Obs} {i p : String} {r : Obs}
    (h : r ∈ groupRows s i p) : r ∈ s ∧ r.index = i ∧ r.period = p := by
  simp only [groupRows, List.mem_filter, Bool.and_eq_true, beq_iff_eq] at h
  exact ⟨h.1, h.2.1, h.2.2⟩

theorem groupRowsD_eq (df : List Obs) (i p : String) :
    groupRowsD df i p =
      (groupRows (sortDf df) i p).map (deriveRow (sortDf df)) := by
  unfold groupRowsD deriveDf groupRows
  exact List.filter_map _ _

theorem groupRows_head_date_min {df : List Obs} {i p : String} {y : Obs}
    (hy : (groupRows (sortDf df) i p).head? = some y) :
    ∀ r ∈ groupRows (sortDf df) i p, y.date ≤ r.date := by
  have hpair : (groupRows (sortDf df) i p).Pairwise obsLe :=
    (sortDf_pairwise df).filter _
  intro r hr
  rcases hgl : groupRows (sortDf df) i p with _ | ⟨z, t⟩
  · rw [hgl] at hr; cases hr
  · rw [hgl] at hy hpair hr
    have hzy : z = y := by
      simpa using hy
    subst hzy
    rcases List.mem_cons.mp hr with rfl | hr
    · exact Nat.le_refl _
    · have hle : obsLe z r := (List.pairwise_cons.mp hpair).1 r hr
      have hzg : z ∈ groupRows (sortDf df) i p := by
        rw [hgl]; exact List.mem_cons_self _ _
      have hrg : r ∈ groupRows (sortDf df) i p := by
        rw [hgl]; exact List.mem_cons_of_mem _ hr
      obtain ⟨-, hzi, hzp⟩ := mem_groupRows hzg
      obtain ⟨-, hri, hrp⟩ := mem_groupRows hrg
      exact obsLe_date_of_group (hzi.trans hri.symm) (hzp.trans hrp.symm) hle

theorem anchorClose_of_group {df : List Obs} {i p : String} {y : Obs}
    (hy : (groupRows (sortDf df) i p).head? = some y) {r : Obs}
    (hr : r ∈ groupRows (sortDf df) i p) :
    anchorClose (sortDf df) r = y.close := by
  obtain ⟨-, hi, hp⟩ := mem_groupRows hr
  unfold anchorClose
  rw [hi, hp, hy]
  rfl

theorem asofBackward_spec {l : List ObsD} (hl : l.Pairwise obsDDateLe) {d : Nat}
    {m : ObsD} (hm : asofBackward l d = some m) :
    m ∈ l ∧ m.date ≤ d ∧ ∀ o ∈ l, o.date ≤ d → o.date ≤ m.date := by
  unfold asofBackward at hm
  obtain ⟨ys, hys⟩ := List.getLast?_eq_some_iff.mp hm
  have hfil : ∀ o ∈ l, o.date ≤ d → o ∈ ys ++ [m] := by
    intro o ho hod
    rw [← hys]
    exact List.mem_filter.mpr ⟨ho, by simpa using hod⟩
  have hmem : m ∈ List.filter (fun o => decide (o.date ≤ d)) l := by
    rw [hys]
    exact List.mem_append.mpr (Or.inr (List.mem_singleton.mpr rfl))
  obtain ⟨hml, hmd⟩ := List.mem_filter.mp hmem
  refine ⟨hml, by simpa using hmd, ?_⟩
  intro o ho hod
  have hpf : (List.filter (fun o => decide (o.date ≤ d)) l).Pairwise obsDDateLe :=
    hl.filter _
  rw [hys] at hpf
  rcases List.mem_append.mp (hfil o ho hod) with hoy | hom
  · exact (List.pairwise_append.mp hpf).2.2 o hoy m (List.mem_singleton.mpr rfl)
  · rw [List.mem_singleton.mp hom]

theorem mem_survivingEvents {events : List Event} {e : EventP}
    (he : e ∈ survivingEvents events) :
    e.period = inferPeriod e.date ∧ e.period.isSome := by
  unfold survivingEvents classifyEvents at he
  obtain ⟨e1, he1, hee⟩ := List.mem_map.mp he
  obtain ⟨he1m, he1s⟩ := List.mem_filter.mp he1
  obtain ⟨e0, he0, he01⟩ := List.mem_map.mp he1m
  subst hee
  subst he01
  exact ⟨rfl, by simpa using he1s⟩

theorem periodFinal_eq_event {a : AlignedEvent} {p : String}
    (h : a.period_event = some p) : periodFinal a = some p := by
  unfold periodFinal
  rw [h]

theorem drawdown_pct_bounded {df : List Obs}
    (hdd : ∀ r ∈ df, ∀ x, r.drawdown = some x → -1 ≤ x ∧ x ≤ 0)
    {r : ObsD} (hr : r ∈ deriveDf df) {v : ℚ} (hv : r.drawdown_pct = some v) :
    -100 ≤ v ∧ v ≤ 10 := by
  obtain ⟨z, hz, rfl⟩ := mem_deriveDf hr
  have hv2 : z.drawdown.map (fun y => y * 100) = some v := hv
  obtain ⟨x, hx, hxv⟩ := Option.map_eq_some'.mp hv2
  obtain ⟨h1, h2⟩ := hdd z hz x hx
  subst hxv
  constructor <;> linarith

theorem fig2_pts_from_deriveDf {df : List Obs} {t : Trace} (ht : t ∈ fig2Traces df)
    {pt : Nat × Option ℚ} (hpt : pt ∈ t.pts) :
    ∃ r ∈ deriveDf df, pt = (r.date, r.drawdown_pct) := by
  unfold fig2Traces at ht
  rcases List.mem_append.mp ht with hta | hta <;>
  · obtain ⟨n, hn, htn⟩ := List.mem_map.mp hta
    subst htn
    obtain ⟨r, hrm, hrp⟩ := List.mem_map.mp hpt
    refine ⟨r, ?_, hrp.symm⟩
    exact (List.mem_filter.mp (List.mem_filter.mp hrm).1).1

theorem fig3_pts_from_df_vol {df : List Obs} {t : Trace} (ht : t ∈ fig3Traces df)
    {pt : Nat × Option ℚ} (hpt : pt ∈ t.pts) :
    ∃ r ∈ df_vol df, pt = (r.date, r.rolling_vol_30d) := by
  unfold fig3Traces at ht
  rcases List.mem_append.mp ht with hta | hta <;>
  · obtain ⟨n, hn, htn⟩ := List.mem_map.mp hta
    subst htn
    obtain ⟨r, hrm, hrp⟩ := List.mem_map.mp hpt
    refine ⟨r, ?_, hrp.symm⟩
    exact (List.mem_filter.mp (List.mem_filter.mp hrm).1).1

/-! Claim theorems. -/

/-- Claim C1: for every event that survives period classification, the
backward as-of join matches it to the NASDAQ observation with the latest
date that is ≤ the event date: the matched date is ≤ the event date, it
is maximal among NASDAQ dates ≤ the event date, no NASDAQ observation
lies strictly between the matched date and the event date, and the
matched close is exactly the aligned price the merge carries over. -/
theorem aligned_event_asof_correct (df : List Obs) (events : List Event)
    (e : EventP) (he : e ∈ survivingEvents events) (m : ObsD)
    (hm : asofBackward (nasdaqOf df) e.date = some m) :
    (alignRow (nasdaqOf df) e).close = some (m.close) ∧
    m ∈ nasdaqOf df ∧ m.date ≤ e.date ∧
    (∀ o ∈ nasdaqOf df, o.date ≤ e.date → o.date ≤ m.date) ∧
    (∀ o ∈ nasdaqOf df, ¬ (m.date < o.date ∧ o.date < e.date)) := by
  obtain ⟨hmem, hmd, hmax⟩ := asofBackward_spec (nasdaqOf_pairwise df) hm
  refine ⟨by simp [alignRow, hm], hmem, hmd, hmax, ?_⟩
  rintro o ho ⟨h1, h2⟩
  exact absurd (hmax o ho (Nat.le_of_lt h2)) (Nat.not_le_of_lt h1)

/-- Witness for C1 at a concrete input: the ia event of `exEventsSmall`
is matched to the 1999-01-04 NASDAQ observation of `exDfSmall`. -/
theorem aligned_event_asof_correct_witness :
    (alignRow (nasdaqOf exDfSmall) exEvIa).close =
      some ((deriveRow (sortDf exDfSmall) exAnchorObs).close) ∧
    deriveRow (sortDf exDfSmall) exAnchorObs ∈ nasdaqOf exDfSmall ∧
    (deriveRow (sortDf exDfSmall) exAnchorObs).date ≤ exEvIa.date := by
  have h := aligned_event_asof_correct exDfSmall exEventsSmall exEvIa (by decide)
    (deriveRow (sortDf exDfSmall) exAnchorObs) (by rfl)
  exact ⟨h.1, h.2.1, h.2.2.1⟩

/-- Counterexample to claim C2: a surviving event with no NASDAQ
observation on or before its date is NOT excluded from the annotated
chart marker set — it appears in the marker trace data with an undefined
(`none`) price. Input: one NASDAQ observation dated 2001-06-01 and one
event dated 2001-03-15. -/
theorem event_without_match_in_marker_data :
    asofBackward (nasdaqOf exDfLate) 20010315 = none ∧
    inferPeriod 20010315 = some ("dotcom") ∧
    (pipeline ⟨exDfLate, exEventsLate⟩).fig4_markers_dotcom =
      some [{ x := 20010315, y := none, text := "Quiebra" }] := by
  refine ⟨by decide, by decide, by decide⟩

/-- Amended claim C2: if a surviving event has no NASDAQ observation with
date on or before its date, its aligned price is left undefined (`none`),
and the event still appears in the annotated chart's marker data for its
period with that undefined price; the empty-trace guard omits the marker
trace only when no event of the period survives at all. -/
theorem unmatched_event_price_undefined (df : List Obs) (events : List Event)
    (e : EventP) (he : e ∈ survivingEvents events) (p : String)
    (hp : e.period = some p)
    (hn : asofBackward (nasdaqOf df) e.date = none) :
    (alignRow (nasdaqOf df) e).close = none ∧
    (alignedRowOf (nasdaqOf df) e).close = none ∧
    ∃ l, fig4MarkersFor df events p = some l ∧
      ∃ mk ∈ l, mk.x = e.date ∧ mk.y = none ∧ mk.text = e.event_name := by
  have hclose : (alignRow (nasdaqOf df) e).close = none := by
    simp [alignRow, hn]
  have hclose2 : (alignedRowOf (nasdaqOf df) e).close = none := hclose
  refine ⟨hclose, hclose2, ?_⟩
  have hper : (alignedRowOf (nasdaqOf df) e).period = some p :=
    periodFinal_eq_event (show (alignRow (nasdaqOf df) e).period_event = some p from hp)
  have hmem : alignedRowOf (nasdaqOf df) e ∈ eventsAligned df events :=
    List.mem_map_of_mem _ ((List.mem_insertionSort evLe).mpr he)
  have hmemf : alignedRowOf (nasdaqOf df) e ∈
      (eventsAligned df events).filter (fun a => a.period == some p) :=
    List.mem_filter.mpr ⟨hmem, by simp [hper]⟩
  have hie : ((eventsAligned df events).filter
      (fun a => a.period == some p)).isEmpty = false :=
    List.isEmpty_eq_false.mpr (List.ne_nil_of_mem hmemf)
  refine ⟨((eventsAligned df events).filter (fun a => a.period == some p)).map
      (fun a => { x := a.date, y := a.close, text := a.event_name }), ?_, ?_⟩
  · simp [fig4MarkersFor, hie]
  · exact ⟨_, List.mem_map_of_mem _ hmemf, rfl, hclose2 ▸ rfl, rfl⟩

/-- Witness for the amended C2 at the concrete input of the
counterexample. -/
theorem unmatched_event_price_undefined_witness :
    (alignRow (nasdaqOf exDfLate) exEvLate).close = none ∧
    (alignedRowOf (nasdaqOf exDfLate) exEvLate).close = none := by
  have h := unmatched_event_price_undefined exDfLate exEventsLate exEvLate
    (by decide) ("dotcom") (by rfl) (by decide)
  exact ⟨h.1, h.2.1⟩

/-- Claim C3: for every `(index, period)` group of the observation table
with at least one row and a non-zero first chronological close, the
rebased column maps the group's first value to exactly 100 and maps every
value `v` of the group to `v / first * 100`; the anchor row is
chronologically first in its group. -/
theorem rebase_first_is_100 (df : List Obs) (i p : String) (x : ObsD)
    (hx : (groupRowsD df i p).head? = some x) (h0 : x.close ≠ 0) :
    x.close_indexed_100 = 100 ∧
    (∀ r ∈ groupRowsD df i p, r.close_indexed_100 = r.close / x.close * 100) ∧
    (∀ r ∈ groupRowsD df i p, x.date ≤ r.date) := by
  rw [groupRowsD_eq, List.head?_map] at hx
  obtain ⟨y, hy, hyx⟩ := Option.map_eq_some'.mp hx
  have hymem : y ∈ groupRows (sortDf df) i p :=
    List.mem_of_mem_head? (Option.mem_def.mpr hy)
  subst hyx
  have hanchor : anchorClose (sortDf df) y = y.close :=
    anchorClose_of_group hy hymem
  refine ⟨?_, ?_, ?_⟩
  · show y.close / anchorClose (sortDf df) y * 100 = 100
    rw [hanchor]
    have h0y : y.close ≠ 0 := h0
    rw [div_self h0y, one_mul]
  · intro r hr
    rw [groupRowsD_eq] at hr
    obtain ⟨z, hzg, hzr⟩ := List.mem_map.mp hr
    subst hzr
    show z.close / anchorClose (sortDf df) z * 100 =
      z.close / y.close * 100
    rw [anchorClose_of_group hy hzg]
  · intro r hr
    rw [groupRowsD_eq] at hr
    obtain ⟨z, hzg, hzr⟩ := List.mem_map.mp hr
    subst hzr
    show y.date ≤ z.date
    exact groupRows_head_date_min hy z hzg

/-- Witness for C3: in `exDfSmall`, the first row of the
`(NASDAQ, dotcom)` group is rebased to exactly 100. -/
theorem rebase_first_is_100_witness :
    (deriveRow (sortDf exDfSmall)
      ⟨19990101, "NASDAQ", "dotcom", 100, some 0, none⟩).close_indexed_100 = 100 := by
  have h := rebase_first_is_100 exDfSmall ("NASDAQ") ("dotcom")
    (deriveRow (sortDf exDfSmall) ⟨19990101, "NASDAQ", "dotcom", 100, some 0, none⟩)
    (by rfl) (by decide)
  exact h.1

/-- Claim C4: dates in 1997-01-01..2002-12-31 are classified "dotcom",
dates in 2020-01-01..2025-12-31 are classified "ia", dates outside both
ranges are classified `none` and such events are dropped by the survival
filter; a classified date lies within its period's bounds, the two ranges
are disjoint, and every surviving event's period is exactly the range
classification of its own date. -/
theorem infer_period_ranges :
    (∀ d : Nat, 19970101 ≤ d ∧ d ≤ 20021231 → inferPeriod d = some ("dotcom")) ∧
    (∀ d : Nat, 20200101 ≤ d ∧ d ≤ 20251231 → inferPeriod d = some ("ia")) ∧
    (∀ d : Nat, ¬(19970101 ≤ d ∧ d ≤ 20021231) → ¬(20200101 ≤ d ∧ d ≤ 20251231) →
      inferPeriod d = none) ∧
    (∀ d : Nat, inferPeriod d = some ("dotcom") → 19970101 ≤ d ∧ d ≤ 20021231) ∧
    (∀ d : Nat, inferPeriod d = some ("ia") → 20200101 ≤ d ∧ d ≤ 20251231) ∧
    (∀ d : Nat, ¬((19970101 ≤ d ∧ d ≤ 20021231) ∧ (20200101 ≤ d ∧ d ≤ 20251231))) ∧
    (∀ events : List Event, ∀ ep ∈ survivingEvents events,
      ep.period = inferPeriod ep.date ∧ (inferPeriod ep.date).isSome) := by
  refine ⟨?_, ?_, ?_, ?_, ?_, ?_, ?_⟩
  · intro d h
    unfold inferPeriod
    rw [if_pos h]
  · intro d h
    unfold inferPeriod
    rw [if_neg (by omega), if_pos h]
  · intro d h1 h2
    unfold inferPeriod
    rw [if_neg h1, if_neg h2]
  · intro d h
    unfold inferPeriod at h
    split_ifs at h with c1 c2
    · exact c1
    · exact absurd (Option.some.inj h) (by decide)
  · intro d h
    unfold inferPeriod at h
    split_ifs at h with c1 c2
    · exact absurd (Option.some.inj h) (by decide)
    · exact c2
  · intro d h
    omega
  · intro events ep hep
    obtain ⟨h1, h2⟩ := mem_survivingEvents hep
    exact ⟨h1, h1 ▸ h2⟩

/-- Witness for C4 at concrete dates, including the boundary dates of
both ranges and a date in neither. -/
theorem infer_period_ranges_witness :
    inferPeriod 19970101 = some ("dotcom") ∧
    inferPeriod 20251231 = some ("ia") ∧
    inferPeriod 20100101 = none ∧
    (exEvIa.period = inferPeriod exEvIa.date ∧ (inferPeriod exEvIa.date).isSome) := by
  refine ⟨?_, ?_, ?_, ?_⟩
  · exact infer_period_ranges.1 19970101 (by decide)
  · exact infer_period_ranges.2.1 20251231 (by decide)
  · exact infer_period_ranges.2.2.1 20100101 (by decide) (by decide)
  · exact infer_period_ranges.2.2.2.2.2.2 exEventsSmall exEvIa (by decide)

/-- Claim C5: both drawdown-chart panels carry the same fixed y-range
(-100, 10); given the documented input contract that drawdown fractions
lie in [-1, 0], every plotted drawdown percentage — and in particular the
global minimum `min_dd` — lies within that shared range. -/
theorem drawdown_yrange_shared (inp : Input)
    (hdd : ∀ r ∈ inp.df, ∀ x, r.drawdown = some x → -1 ≤ x ∧ x ≤ 0) :
    (pipeline inp).fig2_yrange_col1 = (-100, 10) ∧
    (pipeline inp).fig2_yrange_col2 = (-100, 10) ∧
    (∀ t ∈ (pipeline inp).fig2, ∀ pt ∈ t.pts, ∀ v, pt.2 = some v →
      -100 ≤ v ∧ v ≤ 10) ∧
    (∀ mv, min_dd inp.df = some mv → -100 ≤ mv ∧ mv ≤ 10) := by
  refine ⟨rfl, rfl, ?_, ?_⟩
  · intro t ht pt hpt v hv
    obtain ⟨r, hr, hpt2⟩ := fig2_pts_from_deriveDf ht hpt
    subst hpt2
    exact drawdown_pct_bounded hdd hr hv
  · intro mv hmv
    have hmem : mv ∈ (deriveDf inp.df).filterMap (fun r => r.drawdown_pct) :=
      List.min?_mem (fun a b => min_choice a b) hmv
    obtain ⟨r, hr, hrd⟩ := List.mem_filterMap.mp hmem
    exact drawdown_pct_bounded hdd hr hrd

/-- Witness for C5 at a concrete contract-satisfying input. -/
theorem drawdown_yrange_shared_witness :
    (pipeline ⟨exDfSmall, exEventsSmall⟩).fig2_yrange_col1 = (-100, 10) ∧
    (pipeline ⟨exDfSmall, exEventsSmall⟩).fig2_yrange_col2 = (-100, 10) := by
  have hdd : ∀ r ∈ exDfSmall, ∀ x, r.drawdown = some x → -1 ≤ x ∧ x ≤ 0 := by
    intro r hr x hx
    simp only [exDfSmall, List.mem_cons, List.not_mem_nil, or_false] at hr
    rcases hr with rfl | rfl | rfl
    · have h0 := Option.some.inj (show some (0 : ℚ) = some x from hx)
      constructor <;> rw [← h0] <;> norm_num
    · have h0 := Option.some.inj (show some (0 : ℚ) = some x from hx)
      constructor <;> rw [← h0] <;> norm_num
    · exact Option.noConfusion (show (none : Option ℚ) = some x from hx)
  have h := drawdown_yrange_shared ⟨exDfSmall, exEventsSmall⟩ hdd
  exact ⟨h.1, h.2.1⟩

/-- Claim C6: for every surviving event, the inferred period is present,
so the reconciliation `period_event.where(notna, period_idx)` always
returns the event's own period — the fallback to the matched
observation's period is never taken. -/
theorem period_fallback_unreachable (df : List Obs) (events : List Event)
    (e : EventP) (he : e ∈ survivingEvents events) :
    e.period.isSome ∧
    (alignRow (nasdaqOf df) e).period_event = e.period ∧
    periodFinal (alignRow (nasdaqOf df) e) = e.period ∧
    (alignedRowOf (nasdaqOf df) e).period = e.period := by
  obtain ⟨-, hsome⟩ := mem_survivingEvents he
  obtain ⟨p, hp⟩ := Option.isSome_iff_exists.mp hsome
  have hfin : periodFinal (alignRow (nasdaqOf df) e) = e.period := by
    unfold periodFinal
    have hpe : (alignRow (nasdaqOf df) e).period_event = e.period := rfl
    rw [hpe, hp]
  exact ⟨hsome, rfl, hfin, hfin⟩

/-- Witness for C6 at a concrete input. -/
theorem period_fallback_unreachable_witness :
    exEvIa.period.isSome ∧
    (alignRow (nasdaqOf exDfSmall) exEvIa).period_event = exEvIa.period ∧
    periodFinal (alignRow (nasdaqOf exDfSmall) exEvIa) = exEvIa.period ∧
    (alignedRowOf (nasdaqOf exDfSmall) exEvIa).period = exEvIa.period :=
  period_fallback_unreachable exDfSmall exEventsSmall exEvIa (by decide)

/-- Claim C7: the backward as-of join runs against the full NASDAQ series
spanning both periods. Concretely, for `exDfTwoPeriods` the ia-classified
event dated 2020-06-01 precedes every ia-period NASDAQ observation, yet
it is matched to the dotcom-period observation and its close (5000) is
the price carried into the annotated chart's ia marker trace. -/
theorem cross_period_alignment :
    inferPeriod 20200601 = some ("ia") ∧
    ((nasdaqOf exDfTwoPeriods).filter (fun o => o.period == "ia")).all
      (fun o => decide (20200601 < o.date)) = true ∧
    (asofBackward (nasdaqOf exDfTwoPeriods) 20200601).map ObsD.period =
      some ("dotcom") ∧
    (asofBackward (nasdaqOf exDfTwoPeriods) 20200601).map ObsD.close =
      some 5000 ∧
    (pipeline ⟨exDfTwoPeriods, exEventsEarlyIa⟩).fig4_markers_ia =
      some [{ x := 20200601, y := some 5000, text := "EventoIA" }] := by
  refine ⟨by decide, by decide, by decide, by decide, by decide⟩

/-- Claim C8: every row used for the rolling-volatility chart has a
defined 30-day rolling volatility: the filtered table keeps exactly rows
whose metric is present in the original data, and every point of either
chart panel carries a defined y value. -/
theorem rolling_vol_rows_defined (df : List Obs) (r : ObsD) :
    (r ∈ df_vol df → r.rolling_vol_30d.isSome) ∧
    (r ∈ df_vol df → ∃ z ∈ df, r = deriveRow (sortDf df) z ∧
      z.rolling_vol_30d.isSome) ∧
    (r ∈ df_vol_dotcom df → r.rolling_vol_30d.isSome) ∧
    (r ∈ df_vol_ia df → r.rolling_vol_30d.isSome) ∧
    (∀ t ∈ fig3Traces df, ∀ pt ∈ t.pts, pt.2.isSome) := by
  have hbase : r ∈ df_vol df → r.rolling_vol_30d.isSome := fun h => by
    simpa using (List.mem_filter.mp h).2
  refine ⟨hbase, ?_, ?_, ?_, ?_⟩
  · intro h
    obtain ⟨hmem, hsome⟩ := List.mem_filter.mp h
    obtain ⟨z, hz, rfl⟩ := mem_deriveDf hmem
    exact ⟨z, hz, rfl, by simpa using hsome⟩
  · intro h
    exact hbase (List.mem_filter.mp h).1
  · intro h
    exact hbase (List.mem_filter.mp h).1
  · intro t ht pt hpt
    obtain ⟨r2, hr2, hpt2⟩ := fig3_pts_from_df_vol ht hpt
    subst hpt2
    simpa using (List.mem_filter.mp hr2).2

/-- Witness for C8 at a concrete row of `exDfSmall`. -/
theorem rolling_vol_rows_defined_witness :
    (deriveRow (sortDf exDfSmall) exAnchorObs).rolling_vol_30d.isSome :=
  (rolling_vol_rows_defined exDfSmall _).1
    (List.mem_filter.mpr ⟨List.mem_map_of_mem _ (by decide), by decide⟩)

/-- Claim C9: for every row of the derived table, a present drawdown `x`
yields drawdown percentage `x * 100` and a missing drawdown yields a
missing drawdown percentage. -/
theorem drawdown_pct_is_100x (df : List Obs) (r : ObsD) (hr : r ∈ deriveDf df) :
    (∀ x, r.drawdown = some x → r.drawdown_pct = some (x * 100)) ∧
    (r.drawdown = none → r.drawdown_pct = none) := by
  obtain ⟨z, hz, rfl⟩ := mem_deriveDf hr
  constructor
  · intro x hx
    show z.drawdown.map (fun y => y * 100) = some (x * 100)
    rw [show z.drawdown = some x from hx]
    rfl
  · intro hx
    show z.drawdown.map (fun y => y * 100) = none
    rw [show z.drawdown = none from hx]
    rfl

/-- Witness for C9 at a concrete row of `exDfSmall`. -/
theorem drawdown_pct_is_100x_witness :
    (deriveRow (sortDf exDfSmall) exAnchorObs).drawdown_pct = some (0 * 100) := by
  have h := drawdown_pct_is_100x exDfSmall (deriveRow (sortDf exDfSmall) exAnchorObs)
    (List.mem_map_of_mem _ (by decide))
  exact h.1 0 (by rfl)

/-- Claim C10: the pipeline is a deterministic function of its two input
files — identical inputs produce identical chart data in all four chart
specifications and an identical narrative section structure. -/
theorem pipeline_deterministic (i1 i2 : Input) (h : i1 = i2) :
    pipeline i1 = pipeline i2 ∧
    (pipeline i1).fig1 = (pipeline i2).fig1 ∧
    (pipeline i1).fig2 = (pipeline i2).fig2 ∧
    (pipeline i1).fig3 = (pipeline i2).fig3 ∧
    (pipeline i1).fig4_markers_dotcom = (pipeline i2).fig4_markers_dotcom ∧
    (pipeline i1).fig4_markers_ia = (pipeline i2).fig4_markers_ia ∧
    (pipeline i1).sections = (pipeline i2).sections := by
  subst h
  exact ⟨rfl, rfl, rfl, rfl, rfl, rfl, rfl⟩

/-- Witness for C10 at a concrete input. -/
theorem pipeline_deterministic_witness :
    pipeline ⟨exDfSmall, exEventsSmall⟩ = pipeline ⟨exDfSmall, exEventsSmall⟩ :=
  (pipeline_deterministic ⟨exDfSmall, exEventsSmall⟩ ⟨exDfSmall, exEventsSmall⟩ rfl).1

end Burbujas
